import Mathlib

/-!
# Verification of the Mandelbrot application

A shallow embedding of the escape-time kernel (`src/service/mandelbrotops.py`)
and of the viewport / navigation logic of the GUI controller
(`src/gui/gui.py`), together with theorems settling the specified
properties.

Machine floating-point numbers are embedded as exact rationals (`ℚ`); the
complex modulus comparison `abs(z) > horizon` is encoded without square
roots as `horizon^2 < |z|^2`, which is equivalent for every nonnegative
horizon (the program only ever uses the default horizon `2`).
-/

namespace Mandelbrot

/-- A complex number as a pair of rational coordinates, embedding Python's
`complex` (a pair of doubles). -/
structure Cq where
  re : ℚ
  im : ℚ
  deriving DecidableEq, Repr

/-- Complex addition, componentwise (Python `+` on `complex`). -/
def Cq.add (a b : Cq) : Cq := ⟨a.re + b.re, a.im + b.im⟩

/-- Complex multiplication (Python `*` on `complex`). -/
def Cq.mul (a b : Cq) : Cq := ⟨a.re * b.re - a.im * b.im, a.re * b.im + a.im * b.re⟩

instance : Add Cq := ⟨Cq.add⟩

instance : Mul Cq := ⟨Cq.mul⟩

@[ext] lemma Cq.ext_re_im {a b : Cq} (hre : a.re = b.re) (him : a.im = b.im) : a = b := by
  cases a; cases b; simp_all

/-- The squared modulus of a complex number: `abs(z)^2 = re^2 + im^2`.
The source compares `abs(z) > horizon`; we compare `normSq z > horizon^2`,
the same test for `horizon ≥ 0`. -/
def Cq.normSq (z : Cq) : ℚ := z.re ^ 2 + z.im ^ 2

@[simp] lemma Cq.add_re (a b : Cq) : (a + b).re = a.re + b.re := rfl

@[simp] lemma Cq.add_im (a b : Cq) : (a + b).im = a.im + b.im := rfl

@[simp] lemma Cq.mul_re (a b : Cq) : (a * b).re = a.re * b.re - a.im * b.im := rfl

@[simp] lemma Cq.mul_im (a b : Cq) : (a * b).im = a.re * b.im + a.im * b.re := rfl

/-- The loop of `mandelbrot(c, maxiter, horizon)` in
`src/service/mandelbrotops.py`: `z` is the current iterate, `fuel` the
remaining iterations, `n` the current loop index.  At each step, if
`abs(z) > horizon` (encoded squared) the index `n` is returned; when the
loop exhausts `maxiter` iterations it returns `0`. -/
def mandelbrotAux (c : Cq) (horizon : ℚ) : Cq → ℕ → ℕ → ℕ
  | _, 0, _ => 0
  | z, fuel + 1, n =>
    if horizon ^ 2 < z.normSq then n
    else mandelbrotAux c horizon (z * z + c) fuel (n + 1)

/-- `mandelbrot(c, maxiter, horizon=2)` from `src/service/mandelbrotops.py`:
seeds `z = c` (not `z = 0`) and runs the escape loop. -/
def mandelbrot (c : Cq) (maxiter : ℕ) (horizon : ℚ := 2) : ℕ :=
  mandelbrotAux c horizon c maxiter 0

/-- The orbit of `c` under `z ← z² + c` with the source's seeding
`z₀ = c`: `orbit c 0 = c`, `orbit c (n+1) = (orbit c n)² + c`. -/
def orbit (c : Cq) : ℕ → Cq
  | 0 => c
  | n + 1 => orbit c n * orbit c n + c

lemma mandelbrotAux_of_not_escaped (c : Cq) (h : ℚ) (fuel k : ℕ)
    (hb : ∀ j, k ≤ j → j < k + fuel → ¬ h ^ 2 < (orbit c j).normSq) :
    mandelbrotAux c h (orbit c k) fuel k = 0 := by
  induction fuel generalizing k with
  | zero => rfl
  | succ fuel ih =>
    rw [mandelbrotAux, if_neg (hb k le_rfl (by omega))]
    have hstep : orbit c k * orbit c k + c = orbit c (k + 1) := rfl
    rw [hstep]
    exact ih (k + 1) fun j hj1 hj2 => hb j (by omega) (by omega)

lemma mandelbrotAux_of_escape (c : Cq) (h : ℚ) (fuel : ℕ) :
    ∀ k n : ℕ, k ≤ n → n < k + fuel → h ^ 2 < (orbit c n).normSq →
    (∀ m, k ≤ m → m < n → ¬ h ^ 2 < (orbit c m).normSq) →
    mandelbrotAux c h (orbit c k) fuel k = n := by
  induction fuel with
  | zero => intro k n hkn hn _ _; omega
  | succ fuel ih =>
    intro k n hkn hn hesc hmin
    by_cases hk : h ^ 2 < (orbit c k).normSq
    · have hkeq : k = n := by
        by_contra hne
        exact hmin k le_rfl (by omega) hk
      rw [mandelbrotAux, if_pos hk, hkeq]
    · have hkn' : k < n := by
        rcases Nat.eq_or_lt_of_le hkn with heq | hlt
        · exact absurd (heq ▸ hesc) hk
        · exact hlt
      rw [mandelbrotAux, if_neg hk]
      have hstep : orbit c k * orbit c k + c = orbit c (k + 1) := rfl
      rw [hstep]
      exact ih (k + 1) n (by omega) (by omega) hesc
        fun m hm1 hm2 => hmin m (by omega) hm2

lemma mandelbrotAux_zero_or_lt (c : Cq) (h : ℚ) :
    ∀ (fuel : ℕ) (z : Cq) (k : ℕ),
      mandelbrotAux c h z fuel k = 0 ∨
      (k ≤ mandelbrotAux c h z fuel k ∧ mandelbrotAux c h z fuel k < k + fuel) := by
  intro fuel
  induction fuel with
  | zero => intro z k; exact Or.inl rfl
  | succ fuel ih =>
    intro z k
    rw [mandelbrotAux]
    by_cases hz : h ^ 2 < z.normSq
    · rw [if_pos hz]; exact Or.inr ⟨le_rfl, by omega⟩
    · rw [if_neg hz]
      rcases ih (z * z + c) (k + 1) with h0 | ⟨h1, h2⟩
      · exact Or.inl h0
      · exact Or.inr ⟨by omega, by omega⟩

lemma orbit_zero_c (n : ℕ) : orbit ⟨0, 0⟩ n = (⟨0, 0⟩ : Cq) := by
  induction n with
  | zero => rfl
  | succ n ih =>
    rw [orbit, ih]
    ext <;> simp

lemma orbit_two_one : orbit ⟨2, 0⟩ 1 = (⟨6, 0⟩ : Cq) := by
  rw [orbit, orbit]
  ext
  · simp
    norm_num
  · simp

/-- C1: the escape-time kernel, seeded with `z₀ = c`, returns exactly `n`
for every `c` whose orbit under `z ← z² + c` first exceeds the horizon at
iteration `n < maxiter`, returns `0` when the orbit never exceeds the
horizon within `maxiter` iterations, and in particular
`mandelbrot (0+0i) 50 = 0` and `mandelbrot (2+0i) 50 = 1`
(the modulus test `|z| > horizon` is encoded squared). -/
theorem mandelbrot_escape_time_spec (c : Cq) (maxiter : ℕ) (horizon : ℚ) :
    (∀ n, n < maxiter → horizon ^ 2 < (orbit c n).normSq →
      (∀ m, m < n → ¬ horizon ^ 2 < (orbit c m).normSq) →
      mandelbrot c maxiter horizon = n) ∧
    ((∀ n, n < maxiter → ¬ horizon ^ 2 < (orbit c n).normSq) →
      mandelbrot c maxiter horizon = 0) ∧
    mandelbrot ⟨0, 0⟩ 50 = 0 ∧ mandelbrot ⟨2, 0⟩ 50 = 1 := by
  refine ⟨?_, ?_, ?_, ?_⟩
  · intro n hn hesc hmin
    exact mandelbrotAux_of_escape c horizon maxiter 0 n (Nat.zero_le n)
      (by omega) hesc (fun m _ hm2 => hmin m hm2)
  · intro hb
    exact mandelbrotAux_of_not_escaped c horizon maxiter 0
      (fun j _ hj2 => hb j (by omega))
  · exact mandelbrotAux_of_not_escaped ⟨0, 0⟩ 2 50 0
      (fun j _ _ => by rw [orbit_zero_c]; norm_num [Cq.normSq])
  · refine mandelbrotAux_of_escape ⟨2, 0⟩ 2 50 0 1 (by omega) (by omega) ?_ ?_
    · rw [orbit_two_one]; norm_num [Cq.normSq]
    · intro m _ hm
      interval_cases m
      show ¬ (2 : ℚ) ^ 2 < (⟨2, 0⟩ : Cq).normSq
      norm_num [Cq.normSq]

/-- Witness for C1 at the concrete input `c = 2 + 0i`, `maxiter = 50`,
`horizon = 2`: the first escape happens at iteration 1 and the kernel
returns 1. -/
theorem mandelbrot_escape_time_spec_witness : mandelbrot ⟨2, 0⟩ 50 2 = 1 :=
  (mandelbrot_escape_time_spec ⟨2, 0⟩ 50 2).1 1 (by omega)
    (by rw [orbit_two_one]; norm_num [Cq.normSq])
    (by intro m hm
        interval_cases m
        show ¬ (2 : ℚ) ^ 2 < (⟨2, 0⟩ : Cq).normSq
        norm_num [Cq.normSq])

/-- C10: for every `c`, every horizon and every `maxiter ≥ 1`, the kernel
returns a value in `[0, maxiter − 1]` (the value `maxiter` itself is never
returned), and for `maxiter = 0` it returns `0` for every `c`, because the
loop body never runs. -/
theorem mandelbrot_range_bound (c : Cq) (horizon : ℚ) (maxiter : ℕ) :
    (1 ≤ maxiter → mandelbrot c maxiter horizon ≤ maxiter - 1) ∧
    mandelbrot c 0 horizon = 0 := by
  constructor
  · intro hmax
    rcases mandelbrotAux_zero_or_lt c horizon maxiter c 0 with h0 | ⟨_, hlt⟩
    · rw [mandelbrot, h0]; omega
    · rw [mandelbrot]; omega
  · rfl

/-- Witness for C10 at `c = 3 + 0i`, `horizon = 2`, `maxiter = 1`:
the result is bounded by `0`, and with `maxiter = 0` the kernel returns
`0` even though `|c| = 3` already exceeds the horizon. -/
theorem mandelbrot_range_bound_witness :
    mandelbrot ⟨3, 0⟩ 1 2 ≤ 0 ∧ mandelbrot ⟨3, 0⟩ 0 2 = 0 ∧
    (2 : ℚ) ^ 2 < (⟨3, 0⟩ : Cq).normSq :=
  ⟨(mandelbrot_range_bound ⟨3, 0⟩ 2 1).1 (by omega),
   (mandelbrot_range_bound ⟨3, 0⟩ 2 0).2,
   by norm_num [Cq.normSq]⟩

/-- `np.linspace(a, b, num)` as used by `mandelbrot_set`: `num` samples,
`sample i = a + (b - a) * i / (num - 1)` with both endpoints included for
`num ≥ 2`; for `num = 1` the single sample is `a`; for `num = 0` the list
is empty. -/
def linspace (a b : ℚ) (num : ℕ) : List ℚ :=
  if num = 1 then [a]
  else List.ofFn (fun i : Fin num => a + (b - a) * i / ((num : ℚ) - 1))

/-- `mandelbrot_set(xmin, xmax, ymin, ymax, width, height, maxiter)` from
`src/service/mandelbrotops.py`: the grid with
`n3[i, j] = mandelbrot(r1[i] + 1j * r2[j], maxiter)` over the two
linspace axes, as a width-indexed list of height-indexed rows. -/
def mandelbrot_set (xmin xmax ymin ymax : ℚ) (width height maxiter : ℕ) :
    List (List ℕ) :=
  let r1 := linspace xmin xmax width
  let r2 := linspace ymin ymax height
  r1.map (fun x => r2.map (fun y => mandelbrot ⟨x, y⟩ maxiter))

/-- Modelled from the spec's wording for the sampled axes: `n` samples
"evenly spaced over `[a, b]` (inclusive of both endpoints, standard linear
interpolation)": first sample `a`, last sample `b`, consecutive samples a
constant step `(b - a) / (n - 1)` apart. -/
def evenlySpacedIncl (a b : ℚ) (n : ℕ) (l : List ℚ) : Prop :=
  l.length = n ∧ l.head? = some a ∧ l.getLast? = some b ∧
  ∀ i : ℕ, i + 1 < l.length →
    l.getD (i + 1) 0 - l.getD i 0 = (b - a) / ((n : ℚ) - 1)

/-- Modelled from the claim's wording for `sampleRegion`: the grid is
built from `W` x-samples evenly spaced over `[xmin, xmax]` and `H`
y-samples evenly spaced over `[ymin, ymax]` (both endpoints included),
with `grid[i][j] = escapeIterations(complex(xAxis[i], yAxis[j]), maxIter)`
and every entry at most `maxIter`. -/
def sampleRegionClaim (xmin ymin xmax ymax : ℚ) (W H maxiter : ℕ) : Prop :=
  ∃ xs ys : List ℚ,
    evenlySpacedIncl xmin xmax W xs ∧ evenlySpacedIncl ymin ymax H ys ∧
    mandelbrot_set xmin xmax ymin ymax W H maxiter =
      xs.map (fun x => ys.map (fun y => mandelbrot ⟨x, y⟩ maxiter)) ∧
    ∀ row ∈ mandelbrot_set xmin xmax ymin ymax W H maxiter,
      ∀ v ∈ row, v ≤ maxiter

lemma linspace_length (a b : ℚ) (n : ℕ) : (linspace a b n).length = n := by
  rw [linspace]
  split
  · simp_all
  · simp

lemma linspace_one (a b : ℚ) : linspace a b 1 = [a] := by
  rw [linspace, if_pos rfl]

lemma linspace_getD (a b : ℚ) (n : ℕ) (hn : 2 ≤ n) (i : ℕ) (hi : i < n) :
    (linspace a b n).getD i 0 = a + (b - a) * i / ((n : ℚ) - 1) := by
  rw [linspace, if_neg (by omega)]
  rw [List.getD_eq_getElem?_getD, List.getElem?_eq_getElem (by simpa using hi)]
  simp

lemma mandelbrot_le (c : Cq) (maxiter : ℕ) (horizon : ℚ) :
    mandelbrot c maxiter horizon ≤ maxiter := by
  rcases mandelbrotAux_zero_or_lt c horizon maxiter c 0 with h0 | ⟨_, hlt⟩
  · rw [mandelbrot, h0]; omega
  · rw [mandelbrot]; omega

lemma evenlySpacedIncl_linspace (a b : ℚ) (n : ℕ) (hn : 2 ≤ n) :
    evenlySpacedIncl a b n (linspace a b n) := by
  have hlen : (linspace a b n).length = n := linspace_length a b n
  have hne : (linspace a b n) ≠ [] := by
    intro h
    rw [h] at hlen
    simp at hlen
    omega
  refine ⟨hlen, ?_, ?_, ?_⟩
  · rw [List.head?_eq_head hne, List.head_eq_getElem,
      ← List.getD_eq_getElem _ 0 (by omega), linspace_getD a b n hn 0 (by omega)]
    simp
  · rw [List.getLast?_eq_getLast _ hne, List.getLast_eq_getElem,
      ← List.getD_eq_getElem _ 0 (by simp [hlen]; omega), hlen,
      linspace_getD a b n hn (n - 1) (by omega)]
    have hcast : ((n : ℚ) - 1) ≠ 0 := by
      have : (2 : ℚ) ≤ (n : ℚ) := by exact_mod_cast hn
      intro h
      nlinarith
    have hnat : (((n - 1 : ℕ) : ℚ)) = (n : ℚ) - 1 := by
      push_cast [Nat.cast_sub (by omega : 1 ≤ n)]
      ring_nf
    rw [hnat, mul_div_assoc, div_self hcast]
    ring_nf
  · intro i hi
    rw [hlen] at hi
    rw [linspace_getD a b n hn (i + 1) (by omega),
      linspace_getD a b n hn i (by omega)]
    push_cast
    ring

/-- C2 counterexample: with `W = H = 1` over the viewport
`(xmin, ymin, xmax, ymax) = (0, 0, 1, 1)`, no single-element axis can be
evenly spaced over `[0, 1]` with both endpoints included (the code's axis
is `[0]`, which omits the endpoint `1`), so the claim fails at `W = 1`. -/
theorem sampleRegionClaim_false_at_one : ¬ sampleRegionClaim 0 0 1 1 1 1 5 := by
  rintro ⟨xs, ys, ⟨hlen, hhead, hlast, -⟩, -, -, -⟩
  rw [List.length_eq_one] at hlen
  obtain ⟨x, rfl⟩ := hlen
  simp at hhead hlast
  rw [hhead] at hlast
  norm_num at hlast

/-- C2 (amended): for every viewport and `W ≥ 1`, `H ≥ 1`, the grid has
exactly `W` rows of `H` entries, `grid[i][j]` is the kernel applied to
`(xAxis[i], yAxis[j])`, every entry is at most `maxiter`, and the axes are
evenly spaced over `[xmin, xmax]` / `[ymin, ymax]` with both endpoints
included whenever `W ≥ 2` (resp. `H ≥ 2`); for `W = 1` (resp. `H = 1`) the
single sample is `xmin` (resp. `ymin`) and the upper endpoint is not
sampled. -/
theorem mandelbrot_set_grid_spec (xmin xmax ymin ymax : ℚ) (W H maxiter : ℕ)
    (_hW : 1 ≤ W) (_hH : 1 ≤ H) :
    (mandelbrot_set xmin xmax ymin ymax W H maxiter).length = W ∧
    (∀ row ∈ mandelbrot_set xmin xmax ymin ymax W H maxiter, row.length = H) ∧
    (∀ i, i < W → ∀ j, j < H →
      ((mandelbrot_set xmin xmax ymin ymax W H maxiter).getD i []).getD j 0 =
        mandelbrot ⟨(linspace xmin xmax W).getD i 0,
                    (linspace ymin ymax H).getD j 0⟩ maxiter) ∧
    (∀ row ∈ mandelbrot_set xmin xmax ymin ymax W H maxiter,
      ∀ v ∈ row, v ≤ maxiter) ∧
    (2 ≤ W → evenlySpacedIncl xmin xmax W (linspace xmin xmax W)) ∧
    (W = 1 → linspace xmin xmax W = [xmin]) ∧
    (2 ≤ H → evenlySpacedIncl ymin ymax H (linspace ymin ymax H)) ∧
    (H = 1 → linspace ymin ymax H = [ymin]) := by
  have hr1 : (linspace xmin xmax W).length = W := linspace_length _ _ _
  have hr2 : (linspace ymin ymax H).length = H := linspace_length _ _ _
  refine ⟨?_, ?_, ?_, ?_, fun h => evenlySpacedIncl_linspace _ _ _ h,
    fun h => h ▸ linspace_one _ _, fun h => evenlySpacedIncl_linspace _ _ _ h,
    fun h => h ▸ linspace_one _ _⟩
  · simp [mandelbrot_set, hr1]
  · intro row hrow
    rw [mandelbrot_set, List.mem_map] at hrow
    obtain ⟨x, -, rfl⟩ := hrow
    simp [hr2]
  · intro i hi j hj
    rw [mandelbrot_set]
    rw [List.getD_eq_getElem _ [] (by rw [List.length_map]; omega)]
    rw [List.getElem_map]
    rw [List.getD_eq_getElem _ 0 (by rw [List.length_map]; omega)]
    rw [List.getElem_map]
    rw [List.getD_eq_getElem _ 0 (by omega), List.getD_eq_getElem _ 0 (by omega)]
  · intro row hrow v hv
    rw [mandelbrot_set, List.mem_map] at hrow
    obtain ⟨x, -, rfl⟩ := hrow
    rw [List.mem_map] at hv
    obtain ⟨y, -, rfl⟩ := hv
    exact mandelbrot_le _ _ _

/-- Witness for the amended C2 at the concrete viewport `(0, 0, 1, 1)`
with `W = H = 2`, `maxiter = 1`: the grid has exactly two rows. -/
theorem mandelbrot_set_grid_spec_witness :
    (mandelbrot_set 0 1 0 1 2 2 1).length = 2 :=
  (mandelbrot_set_grid_spec 0 1 0 1 2 2 1 (by omega) (by omega)).1

/-!
## The GUI viewport controller (`src/gui/gui.py`)

`MandelbrotGUI` holds the current viewport `currdata = (xmin, ymin, xmax,
ymax)` with derived `cd_width`/`cd_height`, a zoom-level counter and a
`processing` flag.  The mouse/scroll handlers are guarded by `processing`
and dispatch one background sample pass each; we count dispatches
(`dispatchCount` models the calls to `_calc_mandelbrot`, i.e. `GUIWorker`
starts) so that "no new pass is dispatched" is expressible.
-/

/-- The `currdata` tuple `(xmin, ymin, xmax, ymax)` of `MandelbrotGUI`. -/
structure Currdata where
  xmin : ℚ
  ymin : ℚ
  xmax : ℚ
  ymax : ℚ
  deriving DecidableEq, Repr

/-- The fixed configuration taken by `MandelbrotGUI.__init__`: the original
bounds, the display size in units, the pixel density, and the zoom factors
(`zoomfactor_out = 1 / zoomfactor_in` is set once in `__init__`). -/
structure GuiConfig where
  xmin : ℚ
  ymin : ℚ
  xmax : ℚ
  ymax : ℚ
  width : ℚ
  height : ℚ
  dpi : ℚ
  zoomfactor_in : ℚ
  zoomfactor_out : ℚ
  deriving DecidableEq, Repr

/-- The mutable controller state of `MandelbrotGUI`. -/
structure GuiState where
  currdata : Currdata
  cd_width : ℚ
  cd_height : ℚ
  curr_zoomlvl : ℤ
  processing : Bool
  dispatchCount : ℕ
  deriving DecidableEq, Repr

/-- `_calc_cd_wh`: recomputes the current width and height as
`fabs(currdata[0] - currdata[2])` and `fabs(currdata[1] - currdata[3])`. -/
def calc_cd_wh (s : GuiState) : GuiState :=
  { s with cd_width := |s.currdata.xmin - s.currdata.xmax|,
           cd_height := |s.currdata.ymin - s.currdata.ymax| }

/-- `_set_currdata_d`: sets the current data by tuple and recomputes the
width and height. -/
def set_currdata_d (s : GuiState) (d : Currdata) : GuiState :=
  calc_cd_wh { s with currdata := d }

/-- `_set_currdata`: sets the current data by values (calls
`_set_currdata_d`, which already recomputes width/height). -/
def set_currdata (s : GuiState) (xmin ymin xmax ymax : ℚ) : GuiState :=
  set_currdata_d s ⟨xmin, ymin, xmax, ymax⟩

/-- `_calc_mandelbrot`: dispatches one background sample pass (a
`GUIWorker` start); modelled as incrementing the dispatch counter. -/
def calc_mandelbrot (s : GuiState) : GuiState :=
  { s with dispatchCount := s.dispatchCount + 1 }

/-- `_calc_mandelbrot_callback`: the completion callback; the state
mutation it performs on the controller is `processing = False`. -/
def calc_mandelbrot_callback (s : GuiState) : GuiState :=
  { s with processing := false }

/-- `_transform_coords`: affine map from the screen rectangle of size
`(width*dpi, height*dpi)` at origin `(0, 0)` to the plane rectangle at
origin `(currdata[0], currdata[1])` of size `(cd_width, cd_height)`:
`xNew = ((x - x1)/w1)*w2 + x2`, `yNew = ((y - y1)/h1)*h2 + y2`. -/
def transform_coords (cfg : GuiConfig) (s : GuiState) (coords : ℚ × ℚ) :
    ℚ × ℚ :=
  let x1 : ℚ := 0
  let y1 : ℚ := 0
  let w1 : ℚ := cfg.width * cfg.dpi
  let h1 : ℚ := cfg.height * cfg.dpi
  let x2 : ℚ := s.currdata.xmin
  let y2 : ℚ := s.currdata.ymin
  let w2 : ℚ := s.cd_width
  let h2 : ℚ := s.cd_height
  ((coords.1 - x1) / w1 * w2 + x2, (coords.2 - y1) / h1 * h2 + y2)

/-- `_calc_new_coordinates_around`: the rectangle of the current width and
height centered on the given point: `newXMin = x - width/2`,
`newYMin = y - height/2`, `newXMax = newXMin + width`,
`newYMax = newYMin + height`. -/
def calc_new_coordinates_around (s : GuiState) (coords : ℚ × ℚ) : Currdata :=
  let xmin_new := coords.1 - s.cd_width / 2
  let ymin_new := coords.2 - s.cd_height / 2
  ⟨xmin_new, ymin_new, xmin_new + s.cd_width, ymin_new + s.cd_height⟩

/-- `_apply_zoomin`: shrinks the current rectangle around its own center:
half-extents become `cd_width/2 * zoomfactor_in` and
`cd_height/2 * zoomfactor_in`. -/
def apply_zoomin (cfg : GuiConfig) (s : GuiState) : GuiState :=
  let mid : ℚ × ℚ := (s.currdata.xmin + s.cd_width / 2,
                      s.currdata.ymin + s.cd_height / 2)
  let wval := s.cd_width / 2 * cfg.zoomfactor_in
  let hval := s.cd_height / 2 * cfg.zoomfactor_in
  set_currdata s (mid.1 - wval) (mid.2 - hval) (mid.1 + wval) (mid.2 + hval)

/-- `_apply_zoomout`: grows the current rectangle around its own center:
half-extents become `cd_width/2 * zoomfactor_out` and
`cd_height/2 * zoomfactor_out`. -/
def apply_zoomout (cfg : GuiConfig) (s : GuiState) : GuiState :=
  let mid : ℚ × ℚ := (s.currdata.xmin + s.cd_width / 2,
                      s.currdata.ymin + s.cd_height / 2)
  let wval := s.cd_width / 2 * cfg.zoomfactor_out
  let hval := s.cd_height / 2 * cfg.zoomfactor_out
  set_currdata s (mid.1 - wval) (mid.2 - hval) (mid.1 + wval) (mid.2 + hval)

/-- `_button_mouse1_released` (navigate-to-click): when not processing and
the click lies inside the axes, sets `processing`, recenters the viewport
on the transformed click point and dispatches a pass; otherwise the event
is dropped. -/
def button_mouse1_released (cfg : GuiConfig) (s : GuiState)
    (coords : ℚ × ℚ) (inaxes : Bool) : GuiState :=
  if s.processing then s
  else if inaxes then
    let s1 := { s with processing := true }
    let trans_coords := transform_coords cfg s1 coords
    let new_coords := calc_new_coordinates_around s1 trans_coords
    calc_mandelbrot (set_currdata_d s1 new_coords)
  else s

/-- `_button_mouse3_released` (reset view): when not processing, sets
`processing`, restores the original bounds, resets the zoom level to 0 and
dispatches a pass; otherwise the event is dropped. -/
def button_mouse3_released (cfg : GuiConfig) (s : GuiState) : GuiState :=
  if s.processing then s
  else
    let s1 := { s with processing := true }
    let s2 := set_currdata s1 cfg.xmin cfg.ymin cfg.xmax cfg.ymax
    let s3 := { s2 with curr_zoomlvl := 0 }
    calc_mandelbrot s3

/-- `_button_mousescrollup` (zoom out): when not processing, sets
`processing`, applies the zoom-out, decrements `curr_zoomlvl` and
dispatches a pass; otherwise the event is dropped. -/
def button_mousescrollup (cfg : GuiConfig) (s : GuiState) : GuiState :=
  if s.processing then s
  else
    let s1 := { s with processing := true }
    let s2 := apply_zoomout cfg s1
    let s3 := { s2 with curr_zoomlvl := s2.curr_zoomlvl - 1 }
    calc_mandelbrot s3

/-- `_button_mousescrolldown` (zoom in): when not processing, sets
`processing`, applies the zoom-in, increments `curr_zoomlvl` and
dispatches a pass; otherwise the event is dropped. -/
def button_mousescrolldown (cfg : GuiConfig) (s : GuiState) : GuiState :=
  if s.processing then s
  else
    let s1 := { s with processing := true }
    let s2 := apply_zoomin cfg s1
    let s3 := { s2 with curr_zoomlvl := s2.curr_zoomlvl + 1 }
    calc_mandelbrot s3

/-- The controller events: the four navigation requests and the completion
callback of a background pass. -/
inductive GuiEvent where
  | navigate (coords : ℚ × ℚ) (inaxes : Bool)
  | reset
  | zoomOut
  | zoomIn
  | workerDone
  deriving DecidableEq, Repr

/-- One controller step: dispatches an event to the handler that
`_button_released` (resp. the worker callback) invokes for it. -/
def step (cfg : GuiConfig) (s : GuiState) : GuiEvent → GuiState
  | .navigate coords inaxes => button_mouse1_released cfg s coords inaxes
  | .reset => button_mouse3_released cfg s
  | .zoomOut => button_mousescrollup cfg s
  | .zoomIn => button_mousescrolldown cfg s
  | .workerDone => calc_mandelbrot_callback s

/-- Runs a sequence of events from a state. -/
def run (cfg : GuiConfig) (s : GuiState) : List GuiEvent → GuiState
  | [] => s
  | e :: es => run cfg (step cfg s e) es

/-- The controller state after `MandelbrotGUI.__init__`: current data set
to the original bounds (with width/height recomputed), zoom level 0,
not processing, no pass dispatched yet. -/
def initState (cfg : GuiConfig) : GuiState :=
  set_currdata
    { currdata := ⟨cfg.xmin, cfg.ymin, cfg.xmax, cfg.ymax⟩,
      cd_width := 0, cd_height := 0, curr_zoomlvl := 0,
      processing := false, dispatchCount := 0 }
    cfg.xmin cfg.ymin cfg.xmax cfg.ymax

/-- `MandelbrotGUI.__init__`'s derived configuration: `zoomfactor_in` is
the given `zoomfactor` and `zoomfactor_out = 1 / zoomfactor_in`. -/
def GuiConfig.init (xmin xmax ymin ymax width height dpi zoomfactor : ℚ) :
    GuiConfig :=
  { xmin := xmin, ymin := ymin, xmax := xmax, ymax := ymax,
    width := width, height := height, dpi := dpi,
    zoomfactor_in := zoomfactor, zoomfactor_out := 1 / zoomfactor }

/-- The configuration of `Main.py`'s `SETTINGS` (the fields relevant to
the controller): bounds `(-2.0, -1.25, 0.5, 1.25)`, `width = height = 10`,
`dpi = 75`, `zoomfactor = 0.7`. -/
def cfg0 : GuiConfig := GuiConfig.init (-2) (1/2) (-5/4) (5/4) 10 10 75 (7/10)

/-- C5: a navigation request (navigate, reset, zoom out, zoom in) arriving
while `processing` is true leaves the controller state completely
unchanged — viewport, zoom level and processing flag keep their prior
values — and no new sample pass is dispatched (the dispatch counter is
part of the state). -/
theorem processing_drops_requests (cfg : GuiConfig) (s : GuiState)
    (h : s.processing = true) :
    (∀ coords inaxes, step cfg s (.navigate coords inaxes) = s) ∧
    step cfg s .reset = s ∧
    step cfg s .zoomOut = s ∧
    step cfg s .zoomIn = s := by
  refine ⟨fun coords inaxes => ?_, ?_, ?_, ?_⟩ <;>
    simp [step, button_mouse1_released, button_mouse3_released,
      button_mousescrollup, button_mousescrolldown, h]

/-- Witness for C5: a concrete busy state is left unchanged by a reset
request. -/
theorem processing_drops_requests_witness :
    step cfg0 ⟨⟨-2, -5/4, 1/2, 5/4⟩, 5/2, 5/2, 0, true, 1⟩ .reset
      = ⟨⟨-2, -5/4, 1/2, 5/4⟩, 5/2, 5/2, 0, true, 1⟩ :=
  (processing_drops_requests cfg0 ⟨⟨-2, -5/4, 1/2, 5/4⟩, 5/2, 5/2, 0, true, 1⟩
    rfl).2.1

/-- C4 counterexample: from the freshly initialized controller of
`Main.py`'s settings, one accepted zoom-out sets the zoom level to `-1`
(the code decrements on zoom-out), and one accepted zoom-in sets it to
`1` (the code increments on zoom-in) — the opposite of the claimed
directions. -/
theorem zoomlevel_direction_counterexample :
    (initState cfg0).curr_zoomlvl = 0 ∧
    (step cfg0 (initState cfg0) .zoomOut).curr_zoomlvl = -1 ∧
    (step cfg0 (initState cfg0) .zoomIn).curr_zoomlvl = 1 ∧
    ((-1 : ℤ) ≠ 0 + 1) ∧ ((1 : ℤ) ≠ 0 - 1) := by
  refine ⟨rfl, rfl, rfl, by decide, by decide⟩

/-- C4 (amended): the zoom-level counter starts at 0, is decremented by
one on every accepted zoom-out, incremented by one on every accepted
zoom-in, and reset to 0 on an accepted reset-to-origin. -/
theorem zoomlevel_counter_spec (cfg : GuiConfig) (s : GuiState)
    (h : s.processing = false) :
    (initState cfg).curr_zoomlvl = 0 ∧
    (step cfg s .zoomOut).curr_zoomlvl = s.curr_zoomlvl - 1 ∧
    (step cfg s .zoomIn).curr_zoomlvl = s.curr_zoomlvl + 1 ∧
    (step cfg s .reset).curr_zoomlvl = 0 := by
  refine ⟨rfl, ?_, ?_, ?_⟩ <;>
    simp [step, button_mousescrollup, button_mousescrolldown,
      button_mouse3_released, h, apply_zoomout, apply_zoomin,
      set_currdata, set_currdata_d, calc_cd_wh, calc_mandelbrot]

/-- Witness for C4 (amended) at the initial state of `Main.py`'s
settings: one accepted zoom-in increments the level. -/
theorem zoomlevel_counter_spec_witness :
    (step cfg0 (initState cfg0) .zoomIn).curr_zoomlvl
      = (initState cfg0).curr_zoomlvl + 1 :=
  (zoomlevel_counter_spec cfg0 (initState cfg0) rfl).2.2.1

/-- C9: after any prior sequence of events, an accepted reset request
restores the current viewport exactly to the original caller-supplied
startup bounds and sets the zoom level to 0. -/
theorem resetview_restores_origin (cfg : GuiConfig) (evs : List GuiEvent)
    (h : (run cfg (initState cfg) evs).processing = false) :
    (step cfg (run cfg (initState cfg) evs) .reset).currdata
      = ⟨cfg.xmin, cfg.ymin, cfg.xmax, cfg.ymax⟩ ∧
    (step cfg (run cfg (initState cfg) evs) .reset).curr_zoomlvl = 0 := by
  constructor <;>
    simp [step, button_mouse3_released, h, set_currdata, set_currdata_d,
      calc_cd_wh, calc_mandelbrot]

/-- Witness for C9: resetting right after startup (empty prior history)
yields zoom level 0. -/
theorem resetview_restores_origin_witness :
    (step cfg0 (run cfg0 (initState cfg0) []) .reset).curr_zoomlvl = 0 :=
  (resetview_restores_origin cfg0 [] rfl).2

@[ext] lemma Currdata.ext_fields {a b : Currdata} (h1 : a.xmin = b.xmin)
    (h2 : a.ymin = b.ymin) (h3 : a.xmax = b.xmax) (h4 : a.ymax = b.ymax) :
    a = b := by
  cases a; cases b; simp_all

lemma abs_sub_add_self (a w : ℚ) (hw : 0 ≤ w) : |a - (a + w)| = w := by
  have h : a - (a + w) = -w := by ring
  rw [h, abs_neg, abs_of_nonneg hw]

/-- C6: an accepted navigate request maps the screen point through the
affine transform `planeX = (screenX / pixelWidth) * viewportWidth + xmin`
(and likewise for y, with `pixelWidth = width * dpi`), and the new
viewport has the same width and height as the current one, centered on
that plane point: `newXmin = px - width/2`, `newYmin = py - height/2`,
`newXmax = newXmin + width`, `newYmax = newYmin + height`. -/
theorem navigate_affine_recenters (cfg : GuiConfig) (s : GuiState)
    (coords : ℚ × ℚ) (h : s.processing = false)
    (hw : 0 ≤ s.cd_width) (hh : 0 ≤ s.cd_height) :
    (step cfg s (.navigate coords true)).currdata.xmin
      = coords.1 / (cfg.width * cfg.dpi) * s.cd_width + s.currdata.xmin
        - s.cd_width / 2 ∧
    (step cfg s (.navigate coords true)).currdata.ymin
      = coords.2 / (cfg.height * cfg.dpi) * s.cd_height + s.currdata.ymin
        - s.cd_height / 2 ∧
    (step cfg s (.navigate coords true)).currdata.xmax
      = (step cfg s (.navigate coords true)).currdata.xmin + s.cd_width ∧
    (step cfg s (.navigate coords true)).currdata.ymax
      = (step cfg s (.navigate coords true)).currdata.ymin + s.cd_height ∧
    (step cfg s (.navigate coords true)).cd_width = s.cd_width ∧
    (step cfg s (.navigate coords true)).cd_height = s.cd_height := by
  simp only [step, button_mouse1_released, h, Bool.false_eq_true, if_false,
    if_true, transform_coords, calc_new_coordinates_around, set_currdata_d,
    calc_cd_wh, calc_mandelbrot]
  refine ⟨by ring, by ring, by ring_nf, by ring_nf, ?_, ?_⟩
  · exact abs_sub_add_self _ _ hw
  · exact abs_sub_add_self _ _ hh

/-- Witness for C6 at the startup state of `Main.py`'s settings and a
click on the screen center `(375, 375)` of the 750-pixel canvas: the new
viewport keeps width `5/2`. -/
theorem navigate_affine_recenters_witness :
    (step cfg0 (initState cfg0) (.navigate (375, 375) true)).cd_width
      = (initState cfg0).cd_width :=
  (navigate_affine_recenters cfg0 (initState cfg0) (375, 375) rfl
    (by norm_num [initState, set_currdata, set_currdata_d, calc_cd_wh,
      cfg0, GuiConfig.init])
    (by norm_num [initState, set_currdata, set_currdata_d, calc_cd_wh,
      cfg0, GuiConfig.init])).2.2.2.2.1

/-- C7: an accepted zoom-in shrinks the viewport around its own center
`(xmin + width/2, ymin + height/2)`: the new half-extents are the old
half-extents times `zoomfactor_in`; from the startup bounds
`(-2, -5/4, 1/2, 5/4)` with zoom factor `7/10` one zoom-in yields the
viewport `(-13/8, -7/8, 1/8, 7/8)`, i.e. half-extents `7/8 = 0.875`
centered at `(-3/4, 0)`. -/
theorem zoomin_shrinks_around_center (cfg : GuiConfig) (s : GuiState)
    (h : s.processing = false) :
    ((step cfg s .zoomIn).currdata.xmin
        = s.currdata.xmin + s.cd_width / 2
          - s.cd_width / 2 * cfg.zoomfactor_in ∧
     (step cfg s .zoomIn).currdata.ymin
        = s.currdata.ymin + s.cd_height / 2
          - s.cd_height / 2 * cfg.zoomfactor_in ∧
     (step cfg s .zoomIn).currdata.xmax
        = s.currdata.xmin + s.cd_width / 2
          + s.cd_width / 2 * cfg.zoomfactor_in ∧
     (step cfg s .zoomIn).currdata.ymax
        = s.currdata.ymin + s.cd_height / 2
          + s.cd_height / 2 * cfg.zoomfactor_in) ∧
    (step cfg0 (initState cfg0) .zoomIn).currdata
      = ⟨-13/8, -7/8, 1/8, 7/8⟩ := by
  constructor
  · simp [step, button_mousescrolldown, h, apply_zoomin, set_currdata,
      set_currdata_d, calc_cd_wh, calc_mandelbrot]
  · ext <;>
      norm_num [step, button_mousescrolldown, apply_zoomin, set_currdata,
        set_currdata_d, calc_cd_wh, calc_mandelbrot, initState, cfg0,
        GuiConfig.init, abs_of_nonneg]

/-- Witness for C7 at the startup state of `Main.py`'s settings: the
concrete one-step zoom-in result. -/
theorem zoomin_shrinks_around_center_witness :
    (step cfg0 (initState cfg0) .zoomIn).currdata
      = ⟨-13/8, -7/8, 1/8, 7/8⟩ :=
  (zoomin_shrinks_around_center cfg0 (initState cfg0) rfl).2

lemma apply_zoomin_currdata (cfg : GuiConfig) (s : GuiState) :
    (apply_zoomin cfg s).currdata =
      ⟨s.currdata.xmin + s.cd_width / 2 - s.cd_width / 2 * cfg.zoomfactor_in,
       s.currdata.ymin + s.cd_height / 2 - s.cd_height / 2 * cfg.zoomfactor_in,
       s.currdata.xmin + s.cd_width / 2 + s.cd_width / 2 * cfg.zoomfactor_in,
       s.currdata.ymin + s.cd_height / 2 + s.cd_height / 2 * cfg.zoomfactor_in⟩ :=
  rfl

lemma apply_zoomin_cd_width (cfg : GuiConfig) (s : GuiState)
    (hw : 0 ≤ s.cd_width) (hz : 0 ≤ cfg.zoomfactor_in) :
    (apply_zoomin cfg s).cd_width = s.cd_width * cfg.zoomfactor_in := by
  have h0 : (apply_zoomin cfg s).cd_width
      = |(apply_zoomin cfg s).currdata.xmin
          - (apply_zoomin cfg s).currdata.xmax| := rfl
  rw [h0, apply_zoomin_currdata]
  have h : (s.currdata.xmin + s.cd_width / 2
        - s.cd_width / 2 * cfg.zoomfactor_in)
      - (s.currdata.xmin + s.cd_width / 2
        + s.cd_width / 2 * cfg.zoomfactor_in)
      = -(s.cd_width * cfg.zoomfactor_in) := by ring
  simp only
  rw [h, abs_neg, abs_of_nonneg (by positivity)]

lemma apply_zoomin_cd_height (cfg : GuiConfig) (s : GuiState)
    (hh : 0 ≤ s.cd_height) (hz : 0 ≤ cfg.zoomfactor_in) :
    (apply_zoomin cfg s).cd_height = s.cd_height * cfg.zoomfactor_in := by
  have h0 : (apply_zoomin cfg s).cd_height
      = |(apply_zoomin cfg s).currdata.ymin
          - (apply_zoomin cfg s).currdata.ymax| := rfl
  rw [h0, apply_zoomin_currdata]
  have h : (s.currdata.ymin + s.cd_height / 2
        - s.cd_height / 2 * cfg.zoomfactor_in)
      - (s.currdata.ymin + s.cd_height / 2
        + s.cd_height / 2 * cfg.zoomfactor_in)
      = -(s.cd_height * cfg.zoomfactor_in) := by ring
  simp only
  rw [h, abs_neg, abs_of_nonneg (by positivity)]

lemma apply_zoomout_currdata (cfg : GuiConfig) (s : GuiState) :
    (apply_zoomout cfg s).currdata =
      ⟨s.currdata.xmin + s.cd_width / 2 - s.cd_width / 2 * cfg.zoomfactor_out,
       s.currdata.ymin + s.cd_height / 2 - s.cd_height / 2 * cfg.zoomfactor_out,
       s.currdata.xmin + s.cd_width / 2 + s.cd_width / 2 * cfg.zoomfactor_out,
       s.currdata.ymin + s.cd_height / 2 + s.cd_height / 2 * cfg.zoomfactor_out⟩ :=
  rfl

/-- C8: with `zoomfactor_out = 1 / zoomfactor_in` exactly (as `__init__`
sets it), a zoom-in followed by a zoom-out returns the viewport exactly to
its pre-zoom bounds, hence in particular within a relative tolerance of
`1e-9` on every coordinate. -/
theorem zoomin_zoomout_roundtrip (cfg : GuiConfig) (s : GuiState)
    (hzo : cfg.zoomfactor_out = 1 / cfg.zoomfactor_in)
    (hz : 0 < cfg.zoomfactor_in)
    (hw : s.cd_width = s.currdata.xmax - s.currdata.xmin)
    (hh : s.cd_height = s.currdata.ymax - s.currdata.ymin)
    (hw0 : 0 ≤ s.cd_width) (hh0 : 0 ≤ s.cd_height) :
    (apply_zoomout cfg (apply_zoomin cfg s)).currdata = s.currdata ∧
    |(apply_zoomout cfg (apply_zoomin cfg s)).currdata.xmin
      - s.currdata.xmin| ≤ 1e-9 * |s.currdata.xmin| ∧
    |(apply_zoomout cfg (apply_zoomin cfg s)).currdata.ymin
      - s.currdata.ymin| ≤ 1e-9 * |s.currdata.ymin| ∧
    |(apply_zoomout cfg (apply_zoomin cfg s)).currdata.xmax
      - s.currdata.xmax| ≤ 1e-9 * |s.currdata.xmax| ∧
    |(apply_zoomout cfg (apply_zoomin cfg s)).currdata.ymax
      - s.currdata.ymax| ≤ 1e-9 * |s.currdata.ymax| := by
  have hzne : cfg.zoomfactor_in ≠ 0 := ne_of_gt hz
  have hcw := apply_zoomin_cd_width cfg s hw0 (le_of_lt hz)
  have hch := apply_zoomin_cd_height cfg s hh0 (le_of_lt hz)
  have heq : (apply_zoomout cfg (apply_zoomin cfg s)).currdata = s.currdata := by
    rw [apply_zoomout_currdata, hcw, hch, apply_zoomin_currdata, hzo]
    ext
    · show _ = s.currdata.xmin
      field_simp
      ring
    · show _ = s.currdata.ymin
      field_simp
      ring
    · show _ = s.currdata.xmax
      rw [hw]
      field_simp
      ring
    · show _ = s.currdata.ymax
      rw [hh]
      field_simp
      ring
  refine ⟨heq, ?_, ?_, ?_, ?_⟩ <;>
    rw [heq] <;> simp <;> positivity

/-- Witness for C8 at the startup state of `Main.py`'s settings: one
zoom-in followed by one zoom-out restores the startup viewport exactly. -/
theorem zoomin_zoomout_roundtrip_witness :
    (apply_zoomout cfg0 (apply_zoomin cfg0 (initState cfg0))).currdata
      = (initState cfg0).currdata :=
  (zoomin_zoomout_roundtrip cfg0 (initState cfg0) rfl
    (by norm_num [cfg0, GuiConfig.init])
    (by norm_num [initState, set_currdata, set_currdata_d, calc_cd_wh,
      cfg0, GuiConfig.init])
    (by norm_num [initState, set_currdata, set_currdata_d, calc_cd_wh,
      cfg0, GuiConfig.init])
    (by norm_num [initState, set_currdata, set_currdata_d, calc_cd_wh,
      cfg0, GuiConfig.init])
    (by norm_num [initState, set_currdata, set_currdata_d, calc_cd_wh,
      cfg0, GuiConfig.init])).1

/-- The viewport invariant of the claim: the current rectangle is proper
(`xmin < xmax`, `ymin < ymax`) and the stored width and height equal
`|xmax - xmin|` and `|ymax - ymin|` of the current rectangle. -/
def Inv (s : GuiState) : Prop :=
  s.currdata.xmin < s.currdata.xmax ∧ s.currdata.ymin < s.currdata.ymax ∧
  s.cd_width = |s.currdata.xmax - s.currdata.xmin| ∧
  s.cd_height = |s.currdata.ymax - s.currdata.ymin|

lemma Inv_initState (cfg : GuiConfig) (hx : cfg.xmin < cfg.xmax)
    (hy : cfg.ymin < cfg.ymax) : Inv (initState cfg) := by
  refine ⟨hx, hy, ?_, ?_⟩ <;>
    simp [initState, set_currdata, set_currdata_d, calc_cd_wh, abs_sub_comm]

lemma Inv_set_currdata_d (s : GuiState) (d : Currdata)
    (hx : d.xmin < d.xmax) (hy : d.ymin < d.ymax) :
    Inv (set_currdata_d s d) := by
  refine ⟨hx, hy, ?_, ?_⟩ <;>
    simp [set_currdata_d, calc_cd_wh, abs_sub_comm]

lemma Inv_cd_width_pos {s : GuiState} (hs : Inv s) : 0 < s.cd_width := by
  obtain ⟨h1, -, h3, -⟩ := hs
  rw [h3, abs_of_pos (by linarith)]
  linarith

lemma Inv_cd_height_pos {s : GuiState} (hs : Inv s) : 0 < s.cd_height := by
  obtain ⟨-, h2, -, h4⟩ := hs
  rw [h4, abs_of_pos (by linarith)]
  linarith

lemma Inv_after_set (s : GuiState) (d : Currdata)
    (hx : d.xmin < d.xmax) (hy : d.ymin < d.ymax) :
    Inv (calc_mandelbrot (set_currdata_d s d)) :=
  Inv_set_currdata_d s d hx hy

lemma Inv_after_set_zoomlvl (s : GuiState) (d : Currdata) (z : ℤ)
    (hx : d.xmin < d.xmax) (hy : d.ymin < d.ymax) :
    Inv (calc_mandelbrot { set_currdata_d s d with curr_zoomlvl := z }) :=
  Inv_set_currdata_d s d hx hy

lemma step_preserves_Inv (cfg : GuiConfig)
    (hx : cfg.xmin < cfg.xmax) (hy : cfg.ymin < cfg.ymax)
    (hzi : 0 < cfg.zoomfactor_in) (hzo : 0 < cfg.zoomfactor_out)
    (s : GuiState) (hs : Inv s) (e : GuiEvent) : Inv (step cfg s e) := by
  have hw := Inv_cd_width_pos hs
  have hh := Inv_cd_height_pos hs
  cases e with
  | navigate coords inaxes =>
    by_cases hp : s.processing
    · simp only [step, button_mouse1_released, hp, if_true]
      exact hs
    · simp only [Bool.not_eq_true] at hp
      cases inaxes with
      | false =>
        simp only [step, button_mouse1_released, hp, Bool.false_eq_true,
          if_false]
        exact hs
      | true =>
        simp only [step, button_mouse1_released, hp, Bool.false_eq_true,
          if_false, if_true]
        refine Inv_after_set _ _ ?_ ?_ <;>
          simp only [calc_new_coordinates_around] <;> linarith
  | reset =>
    by_cases hp : s.processing
    · simp only [step, button_mouse3_released, hp, if_true]
      exact hs
    · simp only [Bool.not_eq_true] at hp
      simp only [step, button_mouse3_released, hp, Bool.false_eq_true,
        if_false, set_currdata]
      exact Inv_after_set_zoomlvl _ _ _ hx hy
  | zoomOut =>
    by_cases hp : s.processing
    · simp only [step, button_mousescrollup, hp, if_true]
      exact hs
    · simp only [Bool.not_eq_true] at hp
      simp only [step, button_mousescrollup, hp, Bool.false_eq_true,
        if_false, apply_zoomout, set_currdata]
      have hpw : 0 < s.cd_width / 2 * cfg.zoomfactor_out :=
        mul_pos (by linarith) hzo
      have hph : 0 < s.cd_height / 2 * cfg.zoomfactor_out :=
        mul_pos (by linarith) hzo
      refine Inv_after_set_zoomlvl _ _ _ ?_ ?_ <;> simp only [] <;> linarith
  | zoomIn =>
    by_cases hp : s.processing
    · simp only [step, button_mousescrolldown, hp, if_true]
      exact hs
    · simp only [Bool.not_eq_true] at hp
      simp only [step, button_mousescrolldown, hp, Bool.false_eq_true,
        if_false, apply_zoomin, set_currdata]
      have hpw : 0 < s.cd_width / 2 * cfg.zoomfactor_in :=
        mul_pos (by linarith) hzi
      have hph : 0 < s.cd_height / 2 * cfg.zoomfactor_in :=
        mul_pos (by linarith) hzi
      refine Inv_after_set_zoomlvl _ _ _ ?_ ?_ <;> simp only [] <;> linarith
  | workerDone =>
    exact hs

lemma run_preserves_Inv (cfg : GuiConfig)
    (hx : cfg.xmin < cfg.xmax) (hy : cfg.ymin < cfg.ymax)
    (hzi : 0 < cfg.zoomfactor_in) (hzo : 0 < cfg.zoomfactor_out)
    (evs : List GuiEvent) :
    ∀ s : GuiState, Inv s → Inv (run cfg s evs) := by
  induction evs with
  | nil => intro s hs; exact hs
  | cons e es ih =>
    intro s hs
    exact ih _ (step_preserves_Inv cfg hx hy hzi hzo s hs e)

/-- C3: starting from an initial viewport with `xmin < xmax` and
`ymin < ymax` (and positive zoom factors, as in the startup
configuration), after every finite sequence of navigation events the
current viewport still satisfies `xmin < xmax` and `ymin < ymax`, and the
stored width and height equal `|xmax - xmin|` and `|ymax - ymin|` of the
current rectangle. -/
theorem viewport_invariant_spec (cfg : GuiConfig)
    (hx : cfg.xmin < cfg.xmax) (hy : cfg.ymin < cfg.ymax)
    (hzi : 0 < cfg.zoomfactor_in) (hzo : 0 < cfg.zoomfactor_out)
    (evs : List GuiEvent) : Inv (run cfg (initState cfg) evs) :=
  run_preserves_Inv cfg hx hy hzi hzo evs _ (Inv_initState cfg hx hy)

/-- Witness for C3 with `Main.py`'s settings after a zoom-in, a worker
completion, a navigate and a reset. -/
theorem viewport_invariant_spec_witness :
    Inv (run cfg0 (initState cfg0)
      [.zoomIn, .workerDone, .navigate (100, 200) true, .workerDone,
       .reset]) :=
  viewport_invariant_spec cfg0
    (by norm_num [cfg0, GuiConfig.init])
    (by norm_num [cfg0, GuiConfig.init])
    (by norm_num [cfg0, GuiConfig.init])
    (by norm_num [cfg0, GuiConfig.init])
    [.zoomIn, .workerDone, .navigate (100, 200) true, .workerDone, .reset]

end Mandelbrot
